import Mathlib

/-!
A shallow embedding of the franklad/logger package (src/logger.go): a
structured-logging facade over the zerolog engine.  Pure Go functions become
Lean functions; the mutable heap of shared `config` records becomes an explicit
`World` value threaded through the methods that can reach it; each `os.Getenv`
read becomes an explicit `Env` argument at exactly the call sites where the Go
code reads the environment (`New` and `createWriter`).  The zerolog engine is
external to this repository and is modelled from the specification where its
behavior matters (level parsing, context carriage, record emission).
-/

/-- A Go runtime value appearing in a variadic `...any` list.  Only the
string / non-string distinction matters to the code; an integer and a nil
carrier keep the model concrete. -/
inductive GoVal
  | str (s : String)
  | int (n : Int)
  | nil
  deriving DecidableEq

/-- `map[string]any`, modelled as an insertion-ordered association list with
unique keys. -/
abbrev GoMap := List (String × GoVal)

/-- Go map assignment `m[k] = v`: any previous binding of `k` is replaced. -/
def goInsert (m : GoMap) (s : String) (v : GoVal) : GoMap :=
  m.filter (fun q => q.1 != s) ++ [(s, v)]

/-- Go map lookup `m[k]`. -/
def goLookup : GoMap → String → Option GoVal
  | [], _ => none
  | q :: m, k => if q.1 = k then some q.2 else goLookup m k

/-- The loop of `convertFields` (src/logger.go lines 265-281).  The index `i`
stepping by two over the slice becomes two-at-a-time recursion; the
`i+1 >= len(fields)` break is the one-element case; a non-string key is
skipped; otherwise `fieldMap[key] = fields[i+1]`. -/
def convertLoop : GoMap → List GoVal → GoMap
  | m, k :: v :: rest =>
    match k with
    | .str s => convertLoop (goInsert m s v) rest
    | _ => convertLoop m rest
  | m, [] => m
  | m, [_] => m

/-- `convertFields` (src/logger.go lines 265-281): converts a variadic
key-value list to a Go map, skipping invalid pairs. -/
def convertFields (fields : List GoVal) : GoMap :=
  convertLoop [] fields

/-- Specification-side view: the consecutive pairs of a list; a trailing
unpaired element is manifestly dropped. -/
def chunkPairs : List GoVal → List (GoVal × GoVal)
  | a :: b :: rest => (a, b) :: chunkPairs rest
  | [] => []
  | [_] => []

/-- Specification-side view: the consecutive pairs whose first component is a
string, keyed by that string. -/
def stringPairs (fields : List GoVal) : List (String × GoVal) :=
  (chunkPairs fields).filterMap
    (fun p => match p.1 with | .str s => some (s, p.2) | _ => none)

/-- Specification-side view: the value of the last pair carrying key `k`
(last write wins), `none` when no pair carries `k`. -/
def lastWrite : List (String × GoVal) → String → Option GoVal
  | [], _ => none
  | p :: rest, k =>
    match lastWrite rest k with
    | some v => some v
    | none => if p.1 = k then some p.2 else none

theorem goLookup_goInsert (m : GoMap) (s : String) (v : GoVal) (k : String) :
    goLookup (goInsert m s v) k = if s = k then some v else goLookup m k := by
  induction m with
  | nil =>
    by_cases h : s = k <;> simp [goInsert, goLookup, h]
  | cons q m ih =>
    by_cases hqs : q.1 = s
    · have hb : (q.1 != s) = false := by simp [hqs]
      simp only [goInsert, List.filter_cons, hb, Bool.false_eq_true, if_false] at *
      rw [ih]
      by_cases hsk : s = k
      · simp [hsk]
      · have hqk : ¬ q.1 = k := by rw [hqs]; exact hsk
        simp [hsk, goLookup, hqk]
    · have hb : (q.1 != s) = true := by simp [hqs]
      simp only [goInsert, List.filter_cons, hb, if_true] at *
      by_cases hqk : q.1 = k
      · have hsk : ¬ s = k := fun h => hqs (by rw [hqk, h])
        simp [goLookup, hqk, hsk]
      · simp [goLookup, hqk, ih]

theorem convertLoop_lookup (fs : List GoVal) : ∀ (m : GoMap) (k : String),
    goLookup (convertLoop m fs) k =
      match lastWrite (stringPairs fs) k with
      | some v => some v
      | none => goLookup m k
  | m, k => by
    match fs with
    | [] => simp [convertLoop, stringPairs, chunkPairs, lastWrite]
    | [a] => simp [convertLoop, stringPairs, chunkPairs, lastWrite]
    | a :: b :: rest =>
      match a with
      | .str s =>
        have ih := convertLoop_lookup rest (goInsert m s b) k
        simp only [convertLoop, stringPairs, chunkPairs, List.filterMap_cons] at *
        rw [ih]
        cases hrec : lastWrite ((chunkPairs rest).filterMap
            (fun p => match p.1 with | .str s => some (s, p.2) | _ => none)) k with
        | some v => simp [lastWrite, hrec]
        | none =>
          simp only [lastWrite, hrec, goLookup_goInsert]
          by_cases hsk : s = k <;> simp [hsk]
      | .int n =>
        have ih := convertLoop_lookup rest m k
        simpa [convertLoop, stringPairs, chunkPairs, List.filterMap_cons] using ih
      | .nil =>
        have ih := convertLoop_lookup rest m k
        simpa [convertLoop, stringPairs, chunkPairs, List.filterMap_cons] using ih

theorem convertLoop_take (fs : List GoVal) : ∀ (m : GoMap),
    convertLoop m fs = convertLoop m (fs.take (2 * (fs.length / 2)))
  | m => by
    match fs with
    | [] => rfl
    | [a] =>
      have h : 2 * ([a].length / 2) = 0 := by simp
      rw [h]
      rfl
    | a :: b :: rest =>
      have harith : 2 * ((a :: b :: rest).length / 2) = 2 * (rest.length / 2) + 2 := by
        simp only [List.length_cons]
        omega
      rw [harith]
      have htake : (a :: b :: rest).take (2 * (rest.length / 2) + 2)
          = a :: b :: rest.take (2 * (rest.length / 2)) := by
        simp [List.take_succ_cons]
      rw [htake]
      match a with
      | .str s => simpa [convertLoop] using convertLoop_take rest (goInsert m s b)
      | .int n => simpa [convertLoop] using convertLoop_take rest m
      | .nil => simpa [convertLoop] using convertLoop_take rest m

/-- Claim C1: `convertFields` walks consecutive pairs; a pair enters the output
mapping only if its first element is a string; an unpaired trailing element
(odd total length) is ignored (the result only depends on the even-length
prefix); on duplicate string keys the last write wins; the result contains
exactly the string-keyed pairs.  No error is possible: the function is total. -/
theorem convertFields_correct (fs : List GoVal) (k : String) :
    goLookup (convertFields fs) k = lastWrite (stringPairs fs) k
    ∧ convertFields fs = convertFields (fs.take (2 * (fs.length / 2))) := by
  constructor
  · have h := convertLoop_lookup fs [] k
    simp only [convertFields]
    rw [h]
    cases lastWrite (stringPairs fs) k <;> simp [goLookup]
  · exact convertLoop_take fs []

/-- Modelled from the spec: zerolog's level enumeration (the engine is an
external collaborator).  `noLevel` and `disabled` are the engine's two
non-emitting sentinels; `disabled` is the sentinel `FromContext` tests for. -/
inductive Level
  | trace
  | debug
  | info
  | warn
  | error
  | fatal
  | panic
  | noLevel
  | disabled
  deriving DecidableEq

/-- Modelled from the spec: zerolog's numeric severity order (trace lowest). -/
def Level.severity : Level → Int
  | .trace => -1
  | .debug => 0
  | .info => 1
  | .warn => 2
  | .error => 3
  | .fatal => 4
  | .panic => 5
  | .noLevel => 6
  | .disabled => 7

/-- Modelled from the spec: `zerolog.ParseLevel`.  The spec lists the accepted
level strings `trace|debug|info|warn|error|fatal|panic|no|disabled`
(case-insensitivity is supplied by the facade, which lowercases first);
anything else is a parse error, rendered as `none`. -/
def parseLevel : String → Option Level
  | "trace" => some .trace
  | "debug" => some .debug
  | "info" => some .info
  | "warn" => some .warn
  | "error" => some .error
  | "fatal" => some .fatal
  | "panic" => some .panic
  | "no" => some .noLevel
  | "disabled" => some .disabled
  | _ => none

/-- `strings.ToLower`, modelled as per-character case folding over the string's
characters (ASCII folding is all the level and format names exercise). -/
def goToLower (s : String) : String := String.mk (s.data.map Char.toLower)

/-- The two sentinel errors of src/logger.go (lines 44-48); Go `error` values
are only ever compared against these two, so the embedding enumerates them. -/
inductive GoError
  | invalidLogLevel
  | invalidLogFormat
  deriving DecidableEq

/-- `ErrInvalidLogLevel` (src/logger.go line 45). -/
def ErrInvalidLogLevel : GoError := .invalidLogLevel

/-- `ErrInvalidLogFormat` (src/logger.go line 48). -/
def ErrInvalidLogFormat : GoError := .invalidLogFormat

/-- A raw destination byte stream: standard output, an opened file, or a
caller-supplied writer identified abstractly. -/
inductive Sink
  | stdout
  | file (path : String)
  | custom (id : Nat)
  deriving DecidableEq

/-- An `io.Writer` as the package uses one: either a raw sink or zerolog's
`ConsoleWriter` wrapper carrying its `Out`, `TimeFormat` and `NoColor`
fields (src/logger.go line 253). -/
inductive IOWriter
  | sink (s : Sink)
  | console (out : IOWriter) (timeFormat : String) (noColor : Bool)
  deriving DecidableEq

/-- The process environment at the instant of an `os.Getenv` call: the values
of the four variables the package reads; `""` means unset, as in Go. -/
structure Env where
  logLevel : String
  logFormat : String
  logFile : String
  noColor : String
  deriving DecidableEq

/-- The `config` record (src/logger.go lines 72-77). -/
structure Config where
  level : String
  logFormat : String
  timeFormat : String
  out : IOWriter
  deriving DecidableEq

/-- Go's `time.RFC3339` layout constant. -/
def RFC3339 : String := "2006-01-02T15:04:05Z07:00"

/-- `defaults()` (src/logger.go lines 109-116). -/
def defaults : Config :=
  { level := "info", logFormat := "json", timeFormat := RFC3339,
    out := .sink .stdout }

/-- A construction option (src/logger.go lines 79-107): each is a mutator of
one `config` field, applied in the order supplied. -/
inductive Opt
  | withLevel (level : String)
  | withLogFormat (format : String)
  | withTimeFormat (format : String)
  | withOutput (w : IOWriter)
  deriving DecidableEq

/-- Application of one option to the config under construction
(src/logger.go lines 82-107). -/
def applyOpt (c : Config) : Opt → Config
  | .withLevel s => { c with level := s }
  | .withLogFormat s => { c with logFormat := s }
  | .withTimeFormat s => { c with timeFormat := s }
  | .withOutput w => { c with out := w }

/-- The configuration-resolution phase of `New` (src/logger.go lines 119-140):
defaults, then the non-empty environment overrides `LOG_LEVEL`, `LOG_FORMAT`
and `LOG_FILE` (the file opened in create/append mode becomes the sink), then
the caller options in order. -/
def resolveConfig (env : Env) (options : List Opt) : Config :=
  let c := defaults
  let c := if env.logLevel = "" then c else { c with level := env.logLevel }
  let c := if env.logFormat = "" then c else { c with logFormat := env.logFormat }
  let c := if env.logFile = "" then c else { c with out := .sink (.file env.logFile) }
  options.foldl applyOpt c

/-- `createWriter` (src/logger.go lines 248-262): selects the output pipeline
from the lowercased format name; the console branch reads `NO_COLOR` from the
environment at call time. -/
def createWriter (env : Env) (format : String) (out : IOWriter)
    (timeFormat : String) : Except GoError IOWriter :=
  if goToLower format = "json" then .ok out
  else if goToLower format = "console" then
    .ok (.console out timeFormat (env.noColor != ""))
  else .error ErrInvalidLogFormat

/-- Modelled from the spec: the state of one zerolog engine handle (a
`zerolog.Logger` value): its minimum level, its output writer, the fields
baked into its context, and whether the construction chain added a timestamp
hook.  Handles are Go values: copied, never aliased. -/
structure ZLogger where
  level : Level
  writer : IOWriter
  ctx : GoMap
  hasTimestamp : Bool
  deriving DecidableEq

/-- Modelled from the spec: `zerolog.Logger.Level` returns a copy at the given
minimum level. -/
def ZLogger.atLevel (l : ZLogger) (lvl : Level) : ZLogger :=
  { l with level := lvl }

/-- Modelled from the spec: `zerolog.Logger.Output` returns a copy writing to
the given writer. -/
def ZLogger.withOutput (l : ZLogger) (w : IOWriter) : ZLogger :=
  { l with writer := w }

/-- Modelled from the spec: `With().Fields(m).Logger()` returns a copy whose
context carries the mappings of `m` on top of the existing ones. -/
def ZLogger.withFieldsMap (l : ZLogger) (m : GoMap) : ZLogger :=
  { l with ctx := m.foldl (fun acc p => goInsert acc p.1 p.2) l.ctx }

/-- The heap of `config` records reachable through `*config` pointers; a
`ZeroLogger` holds an index into it.  Threading it explicitly makes the
sharing between a facade and its `WithFields` children visible. -/
structure World where
  configs : List Config
  deriving DecidableEq

/-- Dereference a `*config`; indices handed out by `New` are always in
bounds. -/
def World.getConfig (w : World) (i : Nat) : Config :=
  w.configs.getD i defaults

/-- Write through a `*config`. -/
def World.setConfig (w : World) (i : Nat) (c : Config) : World :=
  { configs := w.configs.set i c }

/-- `ZeroLogger` (src/logger.go lines 67-70): one engine handle (a value) plus
one `*config` (a shared pointer, here an index into the `World`). -/
structure ZeroLogger where
  logger : ZLogger
  configRef : Nat
  deriving DecidableEq

/-- `New` (src/logger.go lines 119-158): resolves the configuration, builds
the writer (a construction-time `createWriter` failure is the fatal
"failed to create log writer" panic), parses the level (failure is the fatal
"invalid log level" panic), and allocates the shared `config` in the heap.
The engine handle starts with an empty context and a timestamp hook. -/
def New (env : Env) (options : List Opt) (w : World) :
    Except String (World × ZeroLogger) :=
  let c := resolveConfig env options
  match createWriter env c.logFormat c.out c.timeFormat with
  | .error _ => .error "failed to create log writer"
  | .ok ow =>
    match parseLevel (goToLower c.level) with
    | none => .error "invalid log level"
    | some lvl =>
      .ok ({ configs := w.configs ++ [c] },
           { logger := { level := lvl, writer := ow, ctx := [], hasTimestamp := true },
             configRef := w.configs.length })

/-- `WithFields` (src/logger.go lines 196-201): a fresh facade whose handle
carries the converted fields, sharing the receiver's `*config`. -/
def ZeroLogger.WithFields (z : ZeroLogger) (fields : List GoVal) : ZeroLogger :=
  { logger := z.logger.withFieldsMap (convertFields fields),
    configRef := z.configRef }

/-- `SetLevel` (src/logger.go lines 225-233): lowercase, parse, and on success
replace the receiver's handle by a copy at the parsed level.  The `World` is
in the signature because the receiver can reach it through its `*config`; the
method never touches it. -/
def ZeroLogger.SetLevel (w : World) (z : ZeroLogger) (level : String) :
    World × ZeroLogger × Option GoError :=
  match parseLevel (goToLower level) with
  | none => (w, z, some ErrInvalidLogLevel)
  | some lvl => (w, { z with logger := z.logger.atLevel lvl }, none)

/-- `SetLogFormat` (src/logger.go lines 236-245): rebuild the writer from the
stored sink and timestamp format; on success repoint the handle's output and
write the new format into the shared `config`. -/
def ZeroLogger.SetLogFormat (env : Env) (w : World) (z : ZeroLogger)
    (format : String) : World × ZeroLogger × Option GoError :=
  let cfg := w.getConfig z.configRef
  match createWriter env format cfg.out cfg.timeFormat with
  | .error e => (w, z, some e)
  | .ok ow =>
    (w.setConfig z.configRef { cfg with logFormat := format },
     { z with logger := z.logger.withOutput ow }, none)

/-- Modelled from the spec: a propagation carrier (`context.Context`): an
immutable value bag holding at most one bound engine handle; `rest` stands
for every other entry it carries. -/
structure Ctx where
  binding : Option ZLogger
  rest : Nat
  deriving DecidableEq

/-- Modelled from the spec: the engine's package-level disabled logger, which
`zerolog.Ctx` returns when the carrier holds no binding. -/
def disabledLogger : ZLogger :=
  { level := .disabled, writer := .sink .stdout, ctx := [], hasTimestamp := false }

/-- Modelled from the spec: `zerolog.Ctx(ctx)` retrieves the bound handle, or
the disabled sentinel when there is none. -/
def zerologCtx (c : Ctx) : ZLogger :=
  c.binding.getD disabledLogger

/-- `WithContext` (src/logger.go lines 204-206): returns a new carrier with
the receiver's engine handle bound, the rest of the carrier untouched
(carriers are immutable overlays). -/
def ZeroLogger.WithContext (z : ZeroLogger) (c : Ctx) : Ctx :=
  { binding := some z.logger, rest := c.rest }

/-- `FromContext` (src/logger.go lines 209-222): retrieve the handle from the
carrier; if its level is the `disabled` sentinel, fall back to the receiver's
own handle; either way the result uses the receiver's `*config`. -/
def ZeroLogger.FromContext (z : ZeroLogger) (c : Ctx) : ZeroLogger :=
  let l := zerologCtx c
  if l.level = Level.disabled then
    { logger := z.logger, configRef := z.configRef }
  else
    { logger := l, configRef := z.configRef }

/-- One emitted log record, by content (encoding is the writer's concern). -/
structure Record where
  level : Level
  message : String
  fields : GoMap
  ctxFields : GoMap
  hasTimestamp : Bool
  deriving DecidableEq

/-- Modelled from the spec: the engine emits a record exactly when the event
level is at or above the handle's minimum level (the two sentinels sit above
every emit level, so they emit nothing); the record carries the message, the
converted call-site fields, and the handle's context fields.  This is the
common content of `Trace`/`Debug`/`Info`/`Warn`
(src/logger.go lines 161-178). -/
def ZeroLogger.emitAt (z : ZeroLogger) (lvl : Level) (msg : String)
    (fields : List GoVal) : Option Record :=
  if z.logger.level.severity ≤ lvl.severity ∧ lvl ≠ .noLevel ∧ lvl ≠ .disabled then
    some { level := lvl, message := msg, fields := convertFields fields,
           ctxFields := z.logger.ctx, hasTimestamp := z.logger.hasTimestamp }
  else none

theorem listGetDSetSelf {α : Type} (l : List α) (i : Nat) (c d : α)
    (h : i < l.length) : (l.set i c).getD i d = c := by
  induction l generalizing i with
  | nil => simp at h
  | cons a l ih =>
    cases i with
    | zero => simp [List.getD]
    | succ n =>
      simp only [List.length_cons, Nat.succ_lt_succ_iff] at h
      simpa [List.getD, List.set] using ih n h

theorem listGetDSetNe {α : Type} (l : List α) (i j : Nat) (c d : α)
    (h : i ≠ j) : (l.set j c).getD i d = l.getD i d := by
  induction l generalizing i j with
  | nil => simp [List.set]
  | cons a l ih =>
    cases j with
    | zero =>
      cases i with
      | zero => exact absurd rfl h
      | succ n => simp [List.getD, List.set]
    | succ m =>
      cases i with
      | zero => simp [List.getD, List.set]
      | succ n =>
        have hnm : n ≠ m := fun hh => h (by rw [hh])
        simpa [List.getD, List.set] using ih n m hnm

theorem listGetDConcat {α : Type} (l : List α) (c d : α) :
    (l ++ [c]).getD l.length d = c := by
  induction l with
  | nil => simp [List.getD]
  | cons a l ih => simp [List.getD]

theorem listSetGetDSelf {α : Type} (l : List α) (i : Nat) (d : α)
    (h : i < l.length) : l.set i (l.getD i d) = l := by
  induction l generalizing i with
  | nil => simp at h
  | cons a l ih =>
    cases i with
    | zero => simp [List.getD]
    | succ n =>
      simp only [List.length_cons, Nat.succ_lt_succ_iff] at h
      simpa [List.getD, List.set] using ih n h

theorem listSetSet {α : Type} (l : List α) (i : Nat) (a b : α) :
    (l.set i a).set i b = l.set i b := by
  induction l generalizing i with
  | nil => simp [List.set]
  | cons x l ih =>
    cases i with
    | zero => simp [List.set]
    | succ n => simp [List.set]

deriving instance DecidableEq for Except

/-- A concrete environment with none of the four variables set. -/
def env0 : Env := { logLevel := "", logFormat := "", logFile := "", noColor := "" }

/-- A concrete heap holding one default configuration record. -/
def w0 : World := { configs := [defaults] }

/-- A concrete facade as `New env0 []` would produce it: info level, JSON
pipeline to standard output, empty context, timestamp hook on, pointing at the
configuration in `w0`. -/
def z0 : ZeroLogger :=
  { logger := { level := .info, writer := .sink .stdout, ctx := [], hasTimestamp := true },
    configRef := 0 }

/-- Claim C2: `SetLevel` fails with `ErrInvalidLogLevel` exactly when the
(lowercased) level string does not parse, and then leaves the receiver — in
particular its effective minimum level — and the shared heap unchanged; on
success it returns no error and changes nothing but the receiver's minimum
level (heap untouched, so a sibling facade sharing the `*config` observes no
change at all). -/
theorem setLevel_correct (w : World) (z : ZeroLogger) (level : String) :
    (parseLevel (goToLower level) = none →
      z.SetLevel w level = (w, z, some ErrInvalidLogLevel))
    ∧ (∀ lvl, parseLevel (goToLower level) = some lvl →
      z.SetLevel w level =
        (w, { z with logger := { z.logger with level := lvl } }, none)) := by
  constructor
  · intro h
    simp [ZeroLogger.SetLevel, h]
  · intro lvl h
    simp [ZeroLogger.SetLevel, h, ZLogger.atLevel]

/-- Witness for C2: `"bogus"` is rejected with the level left at `info`, and
`"WARN"` (case-insensitively) moves only the minimum level to `warn`. -/
theorem setLevel_correct_witness :
    z0.SetLevel w0 "bogus" = (w0, z0, some ErrInvalidLogLevel)
    ∧ z0.SetLevel w0 "WARN" =
        (w0, { z0 with logger := { z0.logger with level := Level.warn } }, none) :=
  ⟨(setLevel_correct w0 z0 "bogus").1 (by decide),
   (setLevel_correct w0 z0 "WARN").2 Level.warn (by decide)⟩

/-- Claim C3: when `createWriter` rejects the format, `SetLogFormat` returns
`ErrInvalidLogFormat` and leaves both the shared heap (hence the recorded
format) and the receiver (hence its output pipeline) unchanged; on success it
rebuilds the pipeline from the stored sink and timestamp format and records
the new format in the shared `config`. -/
theorem setLogFormat_correct (env : Env) (w : World) (z : ZeroLogger)
    (format : String) :
    (createWriter env format (w.getConfig z.configRef).out
        (w.getConfig z.configRef).timeFormat = .error ErrInvalidLogFormat →
      z.SetLogFormat env w format = (w, z, some ErrInvalidLogFormat))
    ∧ (∀ ow, createWriter env format (w.getConfig z.configRef).out
        (w.getConfig z.configRef).timeFormat = .ok ow →
      z.SetLogFormat env w format =
        (w.setConfig z.configRef
          { w.getConfig z.configRef with logFormat := format },
         { z with logger := { z.logger with writer := ow } }, none)) := by
  constructor
  · intro h
    simp [ZeroLogger.SetLogFormat, h]
  · intro ow h
    simp [ZeroLogger.SetLogFormat, h, ZLogger.withOutput]

/-- Witness for C3: `"yaml"` is rejected leaving heap and facade untouched;
`"console"` succeeds, wrapping the stored stdout sink in a console writer with
the stored RFC3339 timestamp format and recording `"console"`. -/
theorem setLogFormat_correct_witness :
    z0.SetLogFormat env0 w0 "yaml" = (w0, z0, some ErrInvalidLogFormat)
    ∧ z0.SetLogFormat env0 w0 "console" =
        (w0.setConfig 0 { w0.getConfig 0 with logFormat := "console" },
         { z0 with logger := { z0.logger with
             writer := .console (.sink .stdout) RFC3339 false } }, none) :=
  ⟨(setLogFormat_correct env0 w0 z0 "yaml").1 (by decide),
   (setLogFormat_correct env0 w0 z0 "console").2
     (.console (.sink .stdout) RFC3339 false) (by decide)⟩

/-- A sibling facade derived from `z0` via field attachment; it shares `z0`'s
`*config` (same `configRef`). -/
def child0 : ZeroLogger := z0.WithFields [GoVal.str "app", GoVal.str "x"]

/-- Counterexample to claim C4 as stated: `SetLogFormat "console"` on `z0`
succeeds, yet the configuration snapshot that its `WithFields`-derived sibling
`child0` references changes its format field from `"json"` to `"console"` —
the shared snapshot's format field is state the sibling observes, and it
changes. -/
theorem setLogFormat_sibling_counterexample :
    (z0.SetLogFormat env0 w0 "console").2.2 = none
    ∧ child0.configRef = z0.configRef
    ∧ (w0.getConfig child0.configRef).logFormat = "json"
    ∧ ((z0.SetLogFormat env0 w0 "console").1.getConfig child0.configRef).logFormat
        = "console" := by decide

/-- Claim C4 (amended): a successful `SetLogFormat` on one facade leaves every
other configuration record in the heap unchanged, leaves the shared record's
sink, timestamp format and level string unchanged, and leaves the receiver's
minimum level and context fields untouched — but it does write the new format
into the shared configuration record, which sibling and child instances
referencing the same record observe; their own engine handles (output
pipelines, levels) are unaffected because handles are values, not references. -/
theorem setLogFormat_frame (env : Env) (w : World) (z : ZeroLogger)
    (format : String) (w' : World) (z' : ZeroLogger) (r : Option GoError)
    (hres : z.SetLogFormat env w format = (w', z', r)) (hok : r = none)
    (href : z.configRef < w.configs.length) :
    (∀ i, i ≠ z.configRef → w'.getConfig i = w.getConfig i)
    ∧ w'.getConfig z.configRef
        = { w.getConfig z.configRef with logFormat := format }
    ∧ z'.logger.level = z.logger.level
    ∧ z'.logger.ctx = z.logger.ctx
    ∧ z'.configRef = z.configRef := by
  subst hok
  simp only [ZeroLogger.SetLogFormat] at hres
  split at hres
  · exact absurd (congrArg (fun t => t.2.2) hres) (by simp)
  · simp only [Prod.mk.injEq] at hres
    obtain ⟨hw, hz, -⟩ := hres
    subst hw hz
    refine ⟨fun i hi => ?_, ?_, rfl, rfl, rfl⟩
    · exact listGetDSetNe w.configs i z.configRef _ _ hi
    · exact listGetDSetSelf w.configs z.configRef _ _ href

/-- Witness for C4 (amended), at `z0` switching `w0` to console format: the
shared record keeps everything but its format field. -/
theorem setLogFormat_frame_witness :
    ({ configs := [{ defaults with logFormat := "console" }] } : World).getConfig 0
      = { w0.getConfig 0 with logFormat := "console" } :=
  (setLogFormat_frame env0 w0 z0 "console"
    { configs := [{ defaults with logFormat := "console" }] }
    { z0 with logger := { z0.logger with
        writer := .console (.sink .stdout) RFC3339 false } }
    none (by decide) rfl (by decide)).2.1

/-- Counterexample to claim C5 as stated: `createWriter` matches the format
name case-insensitively, so the format string `"JSON"` — which is neither
`"json"` nor `"console"` — does not fail with `ErrInvalidLogFormat`; it
returns the sink unchanged. -/
theorem createWriter_claim_counterexample :
    ¬ (∀ (env : Env) (format : String) (out : IOWriter) (tf : String),
        format ≠ "json" → format ≠ "console" →
        createWriter env format out tf = .error ErrInvalidLogFormat) := by
  intro h
  have hx := h env0 "JSON" (.sink .stdout) RFC3339 (by decide) (by decide)
  exact absurd hx (by decide)

/-- Claim C5 (amended): `createWriter` selects on the lowercased format name:
lowercase `"json"` returns the sink unchanged; lowercase `"console"` returns a
console wrapper around the sink carrying the given timestamp format, with ANSI
coloring disabled exactly when the `NO_COLOR` environment value is non-empty;
any other format fails with `ErrInvalidLogFormat`.  These are the only
outcomes. -/
theorem createWriter_correct (env : Env) (format : String) (out : IOWriter)
    (tf : String) :
    (goToLower format = "json" → createWriter env format out tf = .ok out)
    ∧ (goToLower format = "console" →
        createWriter env format out tf
          = .ok (.console out tf (env.noColor != "")))
    ∧ (goToLower format ≠ "json" → goToLower format ≠ "console" →
        createWriter env format out tf = .error ErrInvalidLogFormat) := by
  refine ⟨fun h => by simp [createWriter, h], fun h => ?_,
    fun h1 h2 => by simp [createWriter, h1, h2]⟩
  have hj : goToLower format ≠ "json" := by rw [h]; decide
  simp [createWriter, h, hj]

/-- A concrete environment with `NO_COLOR` set (non-empty). -/
def envNC : Env := { logLevel := "", logFormat := "", logFile := "", noColor := "1" }

/-- Witness for C5 (amended): mixed-case `"Console"` under `NO_COLOR=1` yields
the console wrapper with coloring disabled. -/
theorem createWriter_correct_witness :
    createWriter envNC "Console" (.sink .stdout) RFC3339
      = .ok (.console (.sink .stdout) RFC3339 (envNC.noColor != "")) :=
  (createWriter_correct envNC "Console" (.sink .stdout) RFC3339).2.1 (by decide)

/-- The last `WithLevel` option of the list, if any. -/
def lastLevel : List Opt → Option String
  | [] => none
  | o :: rest =>
    match lastLevel rest with
    | some s => some s
    | none => match o with | .withLevel s => some s | _ => none

/-- The last `WithLogFormat` option of the list, if any. -/
def lastFormat : List Opt → Option String
  | [] => none
  | o :: rest =>
    match lastFormat rest with
    | some s => some s
    | none => match o with | .withLogFormat s => some s | _ => none

/-- The last `WithTimeFormat` option of the list, if any. -/
def lastTimeFmt : List Opt → Option String
  | [] => none
  | o :: rest =>
    match lastTimeFmt rest with
    | some s => some s
    | none => match o with | .withTimeFormat s => some s | _ => none

/-- The last `WithOutput` option of the list, if any. -/
def lastOut : List Opt → Option IOWriter
  | [] => none
  | o :: rest =>
    match lastOut rest with
    | some w => some w
    | none => match o with | .withOutput w => some w | _ => none

theorem foldl_applyOpt_level (opts : List Opt) : ∀ c : Config,
    (opts.foldl applyOpt c).level = (lastLevel opts).getD c.level := by
  induction opts with
  | nil => intro c; rfl
  | cons o rest ih =>
    intro c
    rw [List.foldl_cons, ih (applyOpt c o)]
    cases o <;> cases h : lastLevel rest <;> simp [lastLevel, applyOpt, h]

theorem foldl_applyOpt_format (opts : List Opt) : ∀ c : Config,
    (opts.foldl applyOpt c).logFormat = (lastFormat opts).getD c.logFormat := by
  induction opts with
  | nil => intro c; rfl
  | cons o rest ih =>
    intro c
    rw [List.foldl_cons, ih (applyOpt c o)]
    cases o <;> cases h : lastFormat rest <;> simp [lastFormat, applyOpt, h]

theorem foldl_applyOpt_timeFmt (opts : List Opt) : ∀ c : Config,
    (opts.foldl applyOpt c).timeFormat = (lastTimeFmt opts).getD c.timeFormat := by
  induction opts with
  | nil => intro c; rfl
  | cons o rest ih =>
    intro c
    rw [List.foldl_cons, ih (applyOpt c o)]
    cases o <;> cases h : lastTimeFmt rest <;> simp [lastTimeFmt, applyOpt, h]

theorem foldl_applyOpt_out (opts : List Opt) : ∀ c : Config,
    (opts.foldl applyOpt c).out = (lastOut opts).getD c.out := by
  induction opts with
  | nil => intro c; rfl
  | cons o rest ih =>
    intro c
    rw [List.foldl_cons, ih (applyOpt c o)]
    cases o <;> cases h : lastOut rest <;> simp [lastOut, applyOpt, h]

/-- Claim C6: construction layers the configuration in increasing priority —
built-in defaults (level `info`, format `json`, timestamp RFC3339, sink
standard output), then the non-empty environment overrides `LOG_LEVEL`,
`LOG_FORMAT`, `LOG_FILE`, then the caller options with the last option
supplied for a field winning — and `New` installs exactly this resolved
record as the facade's configuration snapshot. -/
theorem new_layering (env : Env) (opts : List Opt) :
    (resolveConfig env opts).level
      = (lastLevel opts).getD (if env.logLevel = "" then "info" else env.logLevel)
    ∧ (resolveConfig env opts).logFormat
      = (lastFormat opts).getD
          (if env.logFormat = "" then "json" else env.logFormat)
    ∧ (resolveConfig env opts).timeFormat = (lastTimeFmt opts).getD RFC3339
    ∧ (resolveConfig env opts).out
      = (lastOut opts).getD
          (if env.logFile = "" then .sink .stdout else .sink (.file env.logFile))
    ∧ (∀ (w w' : World) (z : ZeroLogger), New env opts w = .ok (w', z) →
        w'.getConfig z.configRef = resolveConfig env opts) := by
  refine ⟨?_, ?_, ?_, ?_, ?_⟩
  · by_cases h1 : env.logLevel = "" <;> by_cases h2 : env.logFormat = "" <;>
      by_cases h3 : env.logFile = "" <;>
      simp [resolveConfig, foldl_applyOpt_level, defaults, h1, h2, h3]
  · by_cases h1 : env.logLevel = "" <;> by_cases h2 : env.logFormat = "" <;>
      by_cases h3 : env.logFile = "" <;>
      simp [resolveConfig, foldl_applyOpt_format, defaults, h1, h2, h3]
  · by_cases h1 : env.logLevel = "" <;> by_cases h2 : env.logFormat = "" <;>
      by_cases h3 : env.logFile = "" <;>
      simp [resolveConfig, foldl_applyOpt_timeFmt, defaults, h1, h2, h3]
  · by_cases h1 : env.logLevel = "" <;> by_cases h2 : env.logFormat = "" <;>
      by_cases h3 : env.logFile = "" <;>
      simp [resolveConfig, foldl_applyOpt_out, defaults, h1, h2, h3]
  · intro w w' z hnew
    simp only [New] at hnew
    split at hnew
    · exact absurd hnew (by simp)
    · split at hnew
      · exact absurd hnew (by simp)
      · simp only [Except.ok.injEq, Prod.mk.injEq] at hnew
        obtain ⟨hw, hz⟩ := hnew
        subst hw
        rw [congrArg ZeroLogger.configRef hz.symm]
        exact listGetDConcat w.configs _ _

/-- A concrete environment setting `LOG_LEVEL=warn` and `LOG_FORMAT=console`. -/
def env1 : Env :=
  { logLevel := "warn", logFormat := "console", logFile := "", noColor := "" }

/-- A concrete option list whose `WithLevel "debug"` must beat `LOG_LEVEL`. -/
def opts1 : List Opt := [.withLevel "debug"]

/-- The record `New env1 opts1` resolves: option level `debug` beats
`LOG_LEVEL=warn`, environment format `console` beats the default `json`. -/
def cfg1 : Config :=
  { level := "debug", logFormat := "console", timeFormat := RFC3339,
    out := .sink .stdout }

/-- The facade `New env1 opts1` builds over an empty heap. -/
def z1 : ZeroLogger :=
  { logger := { level := .debug,
                writer := .console (.sink .stdout) RFC3339 false,
                ctx := [],
                hasTimestamp := true },
    configRef := 0 }

/-- Witness for C6: constructing under `env1` with `opts1` from an empty heap
installs the resolved record — option level `debug` over environment format
`console` over default timestamp and sink. -/
theorem new_layering_witness :
    ({ configs := [cfg1] } : World).getConfig z1.configRef
      = resolveConfig env1 opts1 :=
  (new_layering env1 opts1).2.2.2.2 { configs := [] } { configs := [cfg1] } z1
    (by decide)

/-- A facade whose handle sits at the `disabled` sentinel level, obtained from
`z0` through the public `SetLevel "disabled"` transition. -/
def zDis : ZeroLogger := (z0.SetLevel w0 "disabled").2.1

/-- Counterexample to claim C7 as stated: when the bound engine handle sits at
the `disabled` sentinel level, `FromContext` does not return a facade wrapping
the retrieved handle — binding a disabled facade's handle and retrieving
through another facade yields the receiver's own handle instead. -/
theorem fromContext_claim_counterexample :
    ¬ (∀ (recv orig : ZeroLogger) (c : Ctx),
        (recv.FromContext (orig.WithContext c)).logger = orig.logger) := by
  intro h
  exact absurd (h z0 zDis { binding := none, rest := 0 }) (by decide)

/-- Claim C7 (amended): `FromContext` on a carrier with no binding returns a
facade equal to the receiver (same engine handle, same `*config`); on a
carrier produced by `WithContext` from an instance whose handle is not at the
`disabled` sentinel level it returns a facade wrapping the bound handle and
the receiver's `*config`, whose emitted records are identical in content to
the originating instance's; and `WithContext` returns a fresh carrier with the
binding overlaid and everything else the carrier holds preserved. -/
theorem fromContext_correct (recv orig : ZeroLogger) (c : Ctx) :
    (c.binding = none → recv.FromContext c = recv)
    ∧ (orig.logger.level ≠ Level.disabled →
        recv.FromContext (orig.WithContext c)
          = { logger := orig.logger, configRef := recv.configRef }
        ∧ ∀ lvl msg fields,
            (recv.FromContext (orig.WithContext c)).emitAt lvl msg fields
              = orig.emitAt lvl msg fields)
    ∧ (orig.WithContext c).rest = c.rest := by
  refine ⟨fun h => ?_, fun h => ?_, rfl⟩
  · simp [ZeroLogger.FromContext, zerologCtx, h, disabledLogger]
  · have h1 : recv.FromContext (orig.WithContext c)
        = { logger := orig.logger, configRef := recv.configRef } := by
      simp [ZeroLogger.FromContext, ZeroLogger.WithContext, zerologCtx, h]
    refine ⟨h1, fun lvl msg fields => ?_⟩
    rw [h1]
    simp [ZeroLogger.emitAt]

/-- Witness for C7 (amended): an unbound carrier falls back to the receiver,
and a carrier bound by `z0` (level `info`, not disabled) hands `z0`'s handle
to the retrieving facade. -/
theorem fromContext_correct_witness :
    z0.FromContext { binding := none, rest := 5 } = z0
    ∧ z0.FromContext (z0.WithContext { binding := none, rest := 5 })
        = { logger := z0.logger, configRef := z0.configRef } :=
  ⟨(fromContext_correct z0 z0 { binding := none, rest := 5 }).1 rfl,
   ((fromContext_correct z0 z0 { binding := none, rest := 5 }).2.1 (by decide)).1⟩

/-- Counterexample to claim C8 as stated: `SetLogFormat` re-reads the
environment after construction; switching the same constructed facade to
`console` under two environments that differ only in `NO_COLOR` produces
different output pipelines, so post-construction behavior is not independent
of the environment at call time. -/
theorem setLogFormat_reads_env_counterexample :
    ¬ (∀ (e e' : Env) (w : World) (z : ZeroLogger) (f : String),
        z.SetLogFormat e w f = z.SetLogFormat e' w f) := by
  intro h
  exact absurd (h env0 envNC w0 z0 "console") (by decide)

/-- Claim C8 (amended): after construction, `SetLogFormat` is the only
operation that touches the environment, and it depends on the environment at
call time exactly through the `NO_COLOR` value it re-reads inside
`createWriter`: under two environments agreeing on `NO_COLOR` — whatever
`LOG_LEVEL`, `LOG_FORMAT` and `LOG_FILE` hold at call time — it behaves
identically. -/
theorem setLogFormat_env_dependence (e e' : Env) (w : World) (z : ZeroLogger)
    (f : String) (h : e.noColor = e'.noColor) :
    z.SetLogFormat e w f = z.SetLogFormat e' w f := by
  have hcw : ∀ out tf, createWriter e f out tf = createWriter e' f out tf := by
    intro out tf
    simp [createWriter, h]
  simp [ZeroLogger.SetLogFormat, hcw]

/-- An environment with the three construction variables set but `NO_COLOR`
unset, as `env0` has it. -/
def env2 : Env :=
  { logLevel := "trace", logFormat := "console", logFile := "app.log",
    noColor := "" }

/-- Witness for C8 (amended): changed `LOG_LEVEL`/`LOG_FORMAT`/`LOG_FILE`
values at call time do not affect `SetLogFormat`. -/
theorem setLogFormat_env_dependence_witness :
    z0.SetLogFormat env2 w0 "console" = z0.SetLogFormat env0 w0 "console" :=
  setLogFormat_env_dependence env2 env0 w0 z0 "console" rfl

/-- Claim C10: `FromContext` cannot distinguish an absent binding from a bound
handle at the `disabled` sentinel level: on a carrier holding such a binding
it discards the binding and returns a facade built on the receiver's own
engine handle, exactly as on the same carrier with no binding at all. -/
theorem fromContext_disabled_binding (recv : ZeroLogger) (l : ZLogger)
    (r : Nat) (h : l.level = Level.disabled) :
    recv.FromContext { binding := some l, rest := r }
      = recv.FromContext { binding := none, rest := r }
    ∧ (recv.FromContext { binding := some l, rest := r }).logger
      = recv.logger := by
  constructor <;> simp [ZeroLogger.FromContext, zerologCtx, h, disabledLogger]

/-- Witness for C10: a handle disabled via `SetLevel "disabled"` and bound in
a carrier is ignored by `FromContext`, exactly like no binding. -/
theorem fromContext_disabled_binding_witness :
    z0.FromContext { binding := some zDis.logger, rest := 3 }
      = z0.FromContext { binding := none, rest := 3 }
    ∧ (z0.FromContext { binding := some zDis.logger, rest := 3 }).logger
      = z0.logger :=
  fromContext_disabled_binding z0 zDis.logger 3 (by decide)

theorem createWriter_json (env : Env) (out : IOWriter) (tf : String) :
    createWriter env "json" out tf = .ok out := by
  have h : goToLower "json" = "json" := by decide
  simp [createWriter, h]

theorem createWriter_console (env : Env) (out : IOWriter) (tf : String) :
    createWriter env "console" out tf
      = .ok (.console out tf (env.noColor != "")) := by
  have h : goToLower "console" = "console" := by decide
  simp [createWriter, h]

theorem listSetConcatSelf {α : Type} (l : List α) (c d : α) :
    (l ++ [c]).set l.length d = l ++ [d] := by
  induction l with
  | nil => rfl
  | cons a l ih => simp [List.set, ih]

/-- Claim C9: on a facade constructed with format `json`, setting the format
to `json`, then `console`, then `json` again returns the heap and the facade —
hence the output pipeline and with it every subsequently emitted byte (the
model carries no wall clock, so "modulo timestamp" is literal equality here) —
to exactly the state of a facade constructed directly with `json`: the round
trip is the identity. -/
theorem format_roundtrip (env : Env) (opts : List Opt) (w w' : World)
    (z : ZeroLogger) (hnew : New env opts w = .ok (w', z))
    (hjson : (resolveConfig env opts).logFormat = "json") :
    (let s1 := z.SetLogFormat env w' "json"
     let s2 := s1.2.1.SetLogFormat env s1.1 "console"
     let s3 := s2.2.1.SetLogFormat env s2.1 "json"
     s3 = (w', z, none)) := by
  simp only [New] at hnew
  generalize hC : resolveConfig env opts = c at hnew hjson
  obtain ⟨cl, cf, ct, co⟩ := c
  simp only at hjson
  subst hjson
  simp only [createWriter_json] at hnew
  split at hnew
  · exact absurd hnew (by simp)
  · rename_i lvl hlvl
    simp only [Except.ok.injEq, Prod.mk.injEq] at hnew
    obtain ⟨hw, hz⟩ := hnew
    subst hw
    subst hz
    simp only [ZeroLogger.SetLogFormat, World.getConfig, World.setConfig,
      ZLogger.withOutput, listGetDConcat, listSetConcatSelf,
      createWriter_json, createWriter_console]

/-- Witness for C9: over an empty heap and empty environment, `New env0 []`
yields exactly `(w0, z0)` with format `json`, and the json–console–json cycle
restores `(w0, z0)` exactly. -/
theorem format_roundtrip_witness :
    (let s1 := z0.SetLogFormat env0 w0 "json"
     let s2 := s1.2.1.SetLogFormat env0 s1.1 "console"
     let s3 := s2.2.1.SetLogFormat env0 s2.1 "json"
     s3 = (w0, z0, none)) :=
  format_roundtrip env0 [] { configs := [] } w0 z0 (by decide) (by decide)
